import Mathlib

/-!
Verification of the pose-normalization, sequence-matching and caching core of
the magiclens repository (services/core/computer_vision.py,
services/core/pose_cache.py, services/core/table.py and the alembic schema
migration for the three cache tables).

Modelling conventions:
* Python floats are modelled as exact real numbers (`ℝ`); at the caching
  boundary, where byte-exact serialization matters, pose values are modelled
  as exact rationals (`ℚ`), since every IEEE-754 double value is a rational
  number.  Functions built from real arithmetic are `noncomputable` because
  `Real.sqrt` and real division are; concrete evaluations in witnesses go
  through `simp`/`norm_num`.
* `List` stands for Python's list, tuples for Python tuples.
* Database rows are records, a table is a `List` of rows, and the SQL
  statements issued by `pose_cache.py` are translated clause by clause
  (WHERE filters, ORDER BY created_at DESC with LIMIT 1, ON CONFLICT upsert,
  DELETE).  Timestamps are integers counted in days, matching the
  `timedelta(days=...)` TTL constants.  `uuid4` and `NOW()` are modelled as
  explicit arguments.
-/

namespace MagicLens

/-! ## computer_vision.py: PoseAnalyzer static methods -/

/-- Embeds `PoseAnalyzer.extract_coordinates_from_frame`: walk the flat frame
in groups of 4 values `(x, y, z, visibility)` and keep `(x, y)` whenever the
`y` slot exists (`i + 1 < len(frame_data)` in the source). -/
def extract_coordinates_from_frame : List ℝ → List (ℝ × ℝ)
  | x :: y :: _ :: _ :: rest => (x, y) :: extract_coordinates_from_frame rest
  | [x, y, _] => [(x, y)]
  | [x, y] => [(x, y)]
  | _ => []

/-- Embeds `PoseAnalyzer.normalize_pose_frame`: for at least 7 coordinate
pairs, derive hips (+0.3) and knees (+0.4), translate all 11 key points to
the shoulder midpoint and divide by the shoulder width (replaced by 1.0 when
zero). Returns `[]` for fewer than 7 pairs. -/
noncomputable def normalize_pose_frame (coordinates : List (ℝ × ℝ)) : List ℝ :=
  if coordinates.length < 7 then []
  else
    let nose := coordinates.getD 0 (0, 0)
    let left_shoulder := coordinates.getD 1 (0, 0)
    let right_shoulder := coordinates.getD 2 (0, 0)
    let left_elbow := coordinates.getD 3 (0, 0)
    let right_elbow := coordinates.getD 4 (0, 0)
    let left_wrist := coordinates.getD 5 (0, 0)
    let right_wrist := coordinates.getD 6 (0, 0)
    let left_hip := (left_shoulder.1, left_shoulder.2 + 0.3)
    let right_hip := (right_shoulder.1, right_shoulder.2 + 0.3)
    let left_knee := (left_hip.1, left_hip.2 + 0.4)
    let right_knee := (right_hip.1, right_hip.2 + 0.4)
    let shoulder_midpoint :=
      ((left_shoulder.1 + right_shoulder.1) / 2, (left_shoulder.2 + right_shoulder.2) / 2)
    let sw := Real.sqrt ((right_shoulder.1 - left_shoulder.1) ^ 2 +
      (right_shoulder.2 - left_shoulder.2) ^ 2)
    let shoulder_width := if sw = 0 then 1 else sw
    let key_points := [nose, left_shoulder, right_shoulder, left_elbow, right_elbow,
      left_wrist, right_wrist, left_hip, right_hip, left_knee, right_knee]
    key_points.flatMap fun point =>
      [(point.1 - shoulder_midpoint.1) / shoulder_width,
       (point.2 - shoulder_midpoint.2) / shoulder_width]

/-- Embeds `PoseAnalyzer.normalize_pose_sequence`: normalize each frame and
keep only the non-empty results (failed frames are dropped, not padded). -/
noncomputable def normalize_pose_sequence (sequence_data : List (List ℝ)) : List (List ℝ) :=
  (sequence_data.map fun frame_data =>
    normalize_pose_frame (extract_coordinates_from_frame frame_data)).filter
    fun normalized_frame => !normalized_frame.isEmpty

/-- Dot product of two frames, `np.dot` on equal-length 1-D arrays. -/
noncomputable def dotList (v w : List ℝ) : ℝ := (List.zipWith (· * ·) v w).sum

/-- Euclidean norm of a frame, `np.linalg.norm`. -/
noncomputable def normList (v : List ℝ) : ℝ := Real.sqrt (dotList v v)

/-- Embeds `PoseAnalyzer.calculate_frame_similarity`: cosine similarity of the
two vectors remapped to the unit interval, `0.0` on length mismatch, empty
input or a zero norm. -/
noncomputable def calculate_frame_similarity (frame1 frame2 : List ℝ) : ℝ :=
  if frame1.length ≠ frame2.length ∨ frame1.length = 0 then 0
  else
    let norm1 := normList frame1
    let norm2 := normList frame2
    if norm1 = 0 ∨ norm2 = 0 then 0
    else (dotList frame1 frame2 / (norm1 * norm2) + 1) / 2

/-- Embeds the pure computation of `PoseAnalyzer.find_pose_sequence_match`
(the sliding-window scan; the optional cache short-circuit around it is
modelled separately with the cache layer): guards for empty inputs and a
too-long needle, then the maximum over all window offsets of the average
per-frame similarity.  `List.range (n + 1 - w)` has `max 0 (n - w + 1)`
elements, exactly Python's `range(len(norm_a) - window_size + 1)`. -/
noncomputable def find_pose_sequence_match (sequence_a sequence_b : List (List ℝ)) : ℝ :=
  if sequence_a.isEmpty ∨ sequence_b.isEmpty then 0
  else if sequence_a.length < sequence_b.length then 0
  else
    let norm_a := normalize_pose_sequence sequence_a
    let norm_b := normalize_pose_sequence sequence_b
    if norm_a.isEmpty ∨ norm_b.isEmpty then 0
    else
      let window_size := norm_b.length
      (List.range (norm_a.length + 1 - window_size)).foldl
        (fun max_similarity i =>
          let window := (norm_a.drop i).take window_size
          let frame_similarities := (List.range window_size).filterMap fun j =>
            if j < window.length ∧ j < norm_b.length then
              some (calculate_frame_similarity (window.getD j []) (norm_b.getD j []))
            else none
          if frame_similarities.isEmpty then max_similarity
          else max max_similarity (frame_similarities.sum / frame_similarities.length))
        0

/-- Restates the specification's description of the sequence matcher in its
own words, for the refinement claim: `0.0` when either sequence is empty or
the short one is longer, otherwise the maximum over every valid starting
offset of the average index-aligned frame similarity between the window and
the normalized short sequence. -/
noncomputable def spec_sequence_match (long_seq short_seq : List (List ℝ)) : ℝ :=
  if long_seq.isEmpty ∨ short_seq.isEmpty ∨ long_seq.length < short_seq.length then 0
  else
    let nl := normalize_pose_sequence long_seq
    let ns := normalize_pose_sequence short_seq
    ((List.range (nl.length + 1 - ns.length)).map fun i =>
      ((List.range ns.length).map fun j =>
        calculate_frame_similarity (nl.getD (i + j) []) (ns.getD j [])).sum / ns.length).foldl
      max 0

/-! ## Basic facts about the frame arithmetic -/

lemma dotList_nil_left (w : List ℝ) : dotList [] w = 0 := by simp [dotList]

lemma dotList_nil_right (v : List ℝ) : dotList v [] = 0 := by simp [dotList]

lemma dotList_cons (a b : ℝ) (v w : List ℝ) :
    dotList (a :: v) (b :: w) = a * b + dotList v w := by simp [dotList]

lemma dotList_self_nonneg (v : List ℝ) : 0 ≤ dotList v v := by
  induction v with
  | nil => simp [dotList]
  | cons a v ih => rw [dotList_cons]; nlinarith [sq_nonneg a]

/-- One induction step of Cauchy-Schwarz. -/
lemma cauchy_step (a b X Y D : ℝ) (hX : 0 ≤ X) (hY : 0 ≤ Y) (hD : D ^ 2 ≤ X * Y) :
    (a * b + D) ^ 2 ≤ (a * a + X) * (b * b + Y) := by
  rcases eq_or_lt_of_le hY with hY0 | hY0
  · have hD0 : D = 0 := by nlinarith [sq_nonneg D]
    subst hD0
    nlinarith [mul_nonneg hX (sq_nonneg b), sq_nonneg b]
  · nlinarith [sq_nonneg (a * Y - b * D),
      mul_nonneg (sub_nonneg.mpr hD) (add_nonneg (sq_nonneg b) hY)]

/-- Cauchy-Schwarz for the truncating dot product. -/
lemma dotList_sq_le (v : List ℝ) : ∀ w : List ℝ,
    dotList v w ^ 2 ≤ dotList v v * dotList w w := by
  induction v with
  | nil => intro w; simp [dotList]
  | cons a v ih =>
    intro w
    cases w with
    | nil => simp [dotList]
    | cons b w =>
      simp only [dotList_cons]
      exact cauchy_step a b _ _ _ (dotList_self_nonneg v) (dotList_self_nonneg w) (ih w)

lemma normList_nonneg (v : List ℝ) : 0 ≤ normList v := Real.sqrt_nonneg _

lemma sq_normList (v : List ℝ) : normList v ^ 2 = dotList v v :=
  Real.sq_sqrt (dotList_self_nonneg v)

lemma abs_dotList_le (v w : List ℝ) : |dotList v w| ≤ normList v * normList w := by
  have h := dotList_sq_le v w
  have h1 := normList_nonneg v
  have h2 := normList_nonneg w
  have hs1 := sq_normList v
  have hs2 := sq_normList w
  rw [abs_le]
  constructor <;> nlinarith [mul_nonneg h1 h2]

lemma calculate_frame_similarity_nonneg (f1 f2 : List ℝ) :
    0 ≤ calculate_frame_similarity f1 f2 := by
  simp only [calculate_frame_similarity]
  split_ifs with h1 h2
  · exact le_refl 0
  · exact le_refl 0
  · push_neg at h2
    obtain ⟨hn1, hn2⟩ := h2
    have hp1 : 0 < normList f1 := lt_of_le_of_ne (normList_nonneg f1) (Ne.symm hn1)
    have hp2 : 0 < normList f2 := lt_of_le_of_ne (normList_nonneg f2) (Ne.symm hn2)
    have hge : -(normList f1 * normList f2) ≤ dotList f1 f2 :=
      (abs_le.mp (abs_dotList_le f1 f2)).1
    have hq : -1 ≤ dotList f1 f2 / (normList f1 * normList f2) := by
      rw [le_div_iff (mul_pos hp1 hp2)]
      linarith
    linarith

lemma calculate_frame_similarity_le_one (f1 f2 : List ℝ) :
    calculate_frame_similarity f1 f2 ≤ 1 := by
  simp only [calculate_frame_similarity]
  split_ifs with h1 h2
  · exact zero_le_one
  · exact zero_le_one
  · push_neg at h2
    obtain ⟨hn1, hn2⟩ := h2
    have hp1 : 0 < normList f1 := lt_of_le_of_ne (normList_nonneg f1) (Ne.symm hn1)
    have hp2 : 0 < normList f2 := lt_of_le_of_ne (normList_nonneg f2) (Ne.symm hn2)
    have hle : dotList f1 f2 ≤ normList f1 * normList f2 :=
      (abs_le.mp (abs_dotList_le f1 f2)).2
    have hq : dotList f1 f2 / (normList f1 * normList f2) ≤ 1 :=
      (div_le_one (mul_pos hp1 hp2)).mpr hle
    linarith

/-! ## Shape facts about normalization -/

lemma normalize_pose_frame_of_short {coordinates : List (ℝ × ℝ)}
    (h : coordinates.length < 7) : normalize_pose_frame coordinates = [] := by
  simp [normalize_pose_frame, h]

lemma length_normalize_pose_frame {coordinates : List (ℝ × ℝ)}
    (h : 7 ≤ coordinates.length) : (normalize_pose_frame coordinates).length = 22 := by
  rw [normalize_pose_frame, if_neg (by omega)]
  simp [List.length_flatMap]

lemma normalize_pose_frame_length_dichotomy (coordinates : List (ℝ × ℝ)) :
    normalize_pose_frame coordinates = [] ∨
      (normalize_pose_frame coordinates).length = 22 := by
  by_cases h : coordinates.length < 7
  · exact Or.inl (normalize_pose_frame_of_short h)
  · exact Or.inr (length_normalize_pose_frame (by omega))

lemma length_normalize_pose_sequence_le (s : List (List ℝ)) :
    (normalize_pose_sequence s).length ≤ s.length := by
  calc (normalize_pose_sequence s).length
      ≤ ((s.map fun frame_data =>
          normalize_pose_frame (extract_coordinates_from_frame frame_data))).length :=
        List.length_filter_le _ _
    _ = s.length := List.length_map _ _

lemma mem_normalize_pose_sequence {s : List (List ℝ)} {f : List ℝ}
    (hf : f ∈ normalize_pose_sequence s) : f.length = 22 := by
  unfold normalize_pose_sequence at hf
  obtain ⟨hmem, hne⟩ := List.mem_filter.mp hf
  obtain ⟨frame, _, rfl⟩ := List.mem_map.mp hmem
  rcases normalize_pose_frame_length_dichotomy
      (extract_coordinates_from_frame frame) with h | h
  · rw [h] at hne; simp at hne
  · exact h

/-- Number of coordinate pairs extracted from a flat frame. -/
lemma length_extract_coordinates (frame_data : List ℝ) :
    (extract_coordinates_from_frame frame_data).length = (frame_data.length + 2) / 4 := by
  induction frame_data using extract_coordinates_from_frame.induct with
  | case1 x y z w rest ih =>
    simp only [extract_coordinates_from_frame, List.length_cons, ih]
    omega
  | case2 x y z => simp [extract_coordinates_from_frame]
  | case3 x y => simp [extract_coordinates_from_frame]
  | case4 =>
    rename_i l h1 h2 h3
    rcases l with _ | ⟨a, _ | ⟨b, _ | ⟨c, _ | ⟨d, r⟩⟩⟩⟩
    · simp [extract_coordinates_from_frame]
    · simp [extract_coordinates_from_frame]
    · exact (h3 a b rfl).elim
    · exact (h2 a b c rfl).elim
    · exact (h1 a b c d r rfl).elim

/-! ## Equivalence of the sliding-window scan with its specification -/

lemma foldl_max_le_of_le {l : List ℝ} {a c : ℝ} (ha : a ≤ c) (h : ∀ x ∈ l, x ≤ c) :
    l.foldl max a ≤ c := by
  induction l generalizing a with
  | nil => exact ha
  | cons x xs ih =>
    simp only [List.foldl_cons]
    exact ih (max_le ha (h x (by simp))) fun y hy => h y (by simp [hy])

lemma le_foldl_max (l : List ℝ) (a : ℝ) : a ≤ l.foldl max a := by
  induction l generalizing a with
  | nil => exact le_refl a
  | cons x xs ih => exact le_trans (le_max_left a x) (ih (max a x))

lemma foldl_congr_mem {α β : Type} (f g : β → α → β) :
    ∀ (l : List α) (i : β), (∀ b a, a ∈ l → f b a = g b a) → l.foldl f i = l.foldl g i := by
  intro l
  induction l with
  | nil => intro i _; rfl
  | cons x xs ih =>
    intro i h
    simp only [List.foldl_cons]
    rw [h i x (by simp)]
    exact ih _ fun b a ha => h b a (by simp [ha])

lemma filterMap_if_eq_map {α β : Type} (p : α → Prop) [DecidablePred p] (f : α → β) :
    ∀ l : List α, (∀ a ∈ l, p a) →
      (l.filterMap fun a => if p a then some (f a) else none) = l.map f := by
  intro l
  induction l with
  | nil => intro _; rfl
  | cons x xs ih =>
    intro h
    simp only [List.filterMap_cons, if_pos (h x (by simp)), List.map_cons]
    rw [ih fun a ha => h a (by simp [ha])]

lemma getD_take_drop (l : List (List ℝ)) (i w j : ℕ) (hj : j < w) :
    ((l.drop i).take w).getD j ([] : List ℝ) = l.getD (i + j) [] := by
  rw [List.getD_eq_getElem?_getD, List.getD_eq_getElem?_getD, List.getElem?_take,
    if_pos hj, List.getElem?_drop]

lemma avg_mem_unit {l : List ℝ} (h : ∀ x ∈ l, 0 ≤ x ∧ x ≤ 1) :
    0 ≤ l.sum / l.length ∧ l.sum / l.length ≤ 1 := by
  rcases l with _ | ⟨x, xs⟩
  · simp
  · have hlen : (0 : ℝ) < (x :: xs).length := by
      simp only [List.length_cons]
      positivity
    constructor
    · apply div_nonneg _ hlen.le
      exact List.sum_nonneg fun y hy => (h y hy).1
    · rw [div_le_one hlen]
      calc (x :: xs).sum ≤ (x :: xs).length • (1 : ℝ) :=
            List.sum_le_card_nsmul _ 1 fun y hy => (h y hy).2
        _ = (x :: xs).length := by simp

lemma calculate_frame_similarity_nil_left (y : List ℝ) :
    calculate_frame_similarity [] y = 0 := by
  simp [calculate_frame_similarity]

lemma find_eq_spec (sequence_a sequence_b : List (List ℝ)) :
    find_pose_sequence_match sequence_a sequence_b =
      spec_sequence_match sequence_a sequence_b := by
  simp only [find_pose_sequence_match, spec_sequence_match]
  split_ifs with h1 h2 h3 h4 h5 h6 h7
  · rfl
  · tauto
  · rfl
  · tauto
  · rfl
  · -- a dropped-frames branch: one of the two normalized sequences is empty,
    -- the source returns 0 early and the specification fold is identically 0
    rw [eq_comm]
    apply le_antisymm
    · apply foldl_max_le_of_le (le_refl 0)
      intro x hx
      obtain ⟨i, _, rfl⟩ := List.mem_map.mp hx
      rcases h5 with hna | hns
      · rw [List.isEmpty_iff] at hna
        have hz : ∀ j ∈ List.range (normalize_pose_sequence sequence_b).length,
            calculate_frame_similarity
              ((normalize_pose_sequence sequence_a).getD (i + j) [])
              ((normalize_pose_sequence sequence_b).getD j []) = 0 := by
          intro j _
          rw [hna]
          simp only [List.getD_nil]
          rw [calculate_frame_similarity_nil_left]
        rw [List.map_congr_left hz]
        simp
      · rw [List.isEmpty_iff] at hns
        rw [hns]
        simp
    · exact le_foldl_max _ 0
  · tauto
  · -- main branch: rewrite the source fold into the specification fold
    push_neg at h5
    obtain ⟨hna, hns⟩ := h5
    rw [Ne, List.isEmpty_iff] at hna hns
    replace hna : 0 < (normalize_pose_sequence sequence_a).length := List.length_pos.mpr hna
    replace hns : 0 < (normalize_pose_sequence sequence_b).length := List.length_pos.mpr hns
    set na := normalize_pose_sequence sequence_a with hna_def
    set ns := normalize_pose_sequence sequence_b with hns_def
    rw [List.foldl_map]
    apply foldl_congr_mem
    intro m i hi
    rw [List.mem_range] at hi
    have hiw : i + ns.length ≤ na.length := by omega
    have hwin : ((na.drop i).take ns.length).length = ns.length := by
      rw [List.length_take, List.length_drop]
      omega
    have hguard : ∀ j ∈ List.range ns.length,
        j < ((na.drop i).take ns.length).length ∧ j < ns.length := by
      intro j hj
      rw [List.mem_range] at hj
      omega
    rw [filterMap_if_eq_map _ _ _ hguard]
    have hget : ∀ j ∈ List.range ns.length,
        calculate_frame_similarity (((na.drop i).take ns.length).getD j [])
            (ns.getD j []) =
          calculate_frame_similarity (na.getD (i + j) []) (ns.getD j []) := by
      intro j hj
      rw [List.mem_range] at hj
      rw [getD_take_drop na i ns.length j hj]
    rw [List.map_congr_left hget]
    have hlen : ((List.range ns.length).map fun j =>
        calculate_frame_similarity (na.getD (i + j) []) (ns.getD j [])).length =
        ns.length := by
      rw [List.length_map, List.length_range]
    have hnonempty : ¬((List.range ns.length).map fun j =>
        calculate_frame_similarity (na.getD (i + j) []) (ns.getD j [])).isEmpty = true := by
      rw [List.isEmpty_iff, ← List.length_eq_zero, hlen]
      omega
    rw [if_neg hnonempty, hlen]

lemma spec_sequence_match_mem_unit (sequence_a sequence_b : List (List ℝ)) :
    0 ≤ spec_sequence_match sequence_a sequence_b ∧
      spec_sequence_match sequence_a sequence_b ≤ 1 := by
  simp only [spec_sequence_match]
  split_ifs with h1
  · exact ⟨le_refl 0, zero_le_one⟩
  · constructor
    · exact le_foldl_max _ 0
    · apply foldl_max_le_of_le zero_le_one
      intro x hx
      obtain ⟨i, _, rfl⟩ := List.mem_map.mp hx
      have h := avg_mem_unit (l := (List.range
          (normalize_pose_sequence sequence_b).length).map fun j =>
          calculate_frame_similarity
            ((normalize_pose_sequence sequence_a).getD (i + j) [])
            ((normalize_pose_sequence sequence_b).getD j []))
        (by
          intro y hy
          obtain ⟨j, _, rfl⟩ := List.mem_map.mp hy
          exact ⟨calculate_frame_similarity_nonneg _ _,
            calculate_frame_similarity_le_one _ _⟩)
      rw [List.length_map, List.length_range] at h
      exact h.2

/-! ## The 26-value threshold of the raw-frame pipeline -/

lemma pipeline_of_short {frame : List ℝ} (h : frame.length < 26) :
    normalize_pose_frame (extract_coordinates_from_frame frame) = [] := by
  apply normalize_pose_frame_of_short
  rw [length_extract_coordinates]
  omega

lemma pipeline_of_long {frame : List ℝ} (h : 26 ≤ frame.length) :
    (normalize_pose_frame (extract_coordinates_from_frame frame)).length = 22 := by
  apply length_normalize_pose_frame
  rw [length_extract_coordinates]
  omega

lemma normalize_sequence_cons_of_short {frame : List ℝ} (h : frame.length < 26)
    (s : List (List ℝ)) :
    normalize_pose_sequence (frame :: s) = normalize_pose_sequence s := by
  simp only [normalize_pose_sequence, List.map_cons, List.filter_cons, pipeline_of_short h]
  simp

lemma pipeline_ne_nil_of_long {frame : List ℝ} (h : 26 ≤ frame.length) :
    normalize_pose_frame (extract_coordinates_from_frame frame) ≠ [] := by
  intro hc
  have h22 := pipeline_of_long h
  rw [hc] at h22
  simp at h22

lemma normalize_sequence_cons_of_long {frame : List ℝ} (h : 26 ≤ frame.length)
    (s : List (List ℝ)) :
    normalize_pose_sequence (frame :: s) =
      normalize_pose_frame (extract_coordinates_from_frame frame) ::
        normalize_pose_sequence s := by
  simp only [normalize_pose_sequence, List.map_cons, List.filter_cons]
  rw [if_pos (by simp [pipeline_ne_nil_of_long h])]

/-! ## Claim theorems for the numeric pipeline -/

lemma dotList_34 : dotList [(3:ℝ), 4] [(3:ℝ), 4] = 25 := by
  simp only [dotList, List.zipWith, List.sum_cons, List.sum_nil]
  norm_num

lemma normList_34 : normList [(3:ℝ), 4] = 5 := by
  rw [normList, dotList_34, show (25:ℝ) = 5 ^ 2 by norm_num]
  exact Real.sqrt_sq (by norm_num)

/-- C1: `find_pose_sequence_match` returns 0 when either sequence is empty or
the short sequence is longer than the long one, otherwise equals the maximum
over all window offsets of the average index-aligned frame similarity
between the window of the normalized long sequence and the normalized short
sequence (`spec_sequence_match` spells this out in the specification's
words), and the result always lies in the unit interval. -/
theorem C1_find_pose_sequence_match_spec (sequence_a sequence_b : List (List ℝ)) :
    find_pose_sequence_match sequence_a sequence_b =
      spec_sequence_match sequence_a sequence_b ∧
    0 ≤ find_pose_sequence_match sequence_a sequence_b ∧
    find_pose_sequence_match sequence_a sequence_b ≤ 1 := by
  have h := find_eq_spec sequence_a sequence_b
  have hb := spec_sequence_match_mem_unit sequence_a sequence_b
  exact ⟨h, by rw [h]; exact hb.1, by rw [h]; exact hb.2⟩

/-- C2: `calculate_frame_similarity` returns exactly 0 when the lengths
differ, a vector is empty, or a vector has zero Euclidean norm; otherwise it
is the cosine similarity remapped by `(cos + 1) / 2`, and the result always
lies in the unit interval. -/
theorem C2_calculate_frame_similarity_spec (frame1 frame2 : List ℝ) :
    (frame1.length ≠ frame2.length ∨ frame1 = [] ∨ frame2 = [] →
      calculate_frame_similarity frame1 frame2 = 0) ∧
    (normList frame1 = 0 ∨ normList frame2 = 0 →
      calculate_frame_similarity frame1 frame2 = 0) ∧
    (frame1.length = frame2.length → frame1 ≠ [] →
      normList frame1 ≠ 0 → normList frame2 ≠ 0 →
      calculate_frame_similarity frame1 frame2 =
        (dotList frame1 frame2 / (normList frame1 * normList frame2) + 1) / 2) ∧
    0 ≤ calculate_frame_similarity frame1 frame2 ∧
    calculate_frame_similarity frame1 frame2 ≤ 1 := by
  refine ⟨?_, ?_, ?_, calculate_frame_similarity_nonneg _ _,
    calculate_frame_similarity_le_one _ _⟩
  · intro h
    simp only [calculate_frame_similarity]
    rcases h with h | h | h
    · rw [if_pos (Or.inl h)]
    · rw [if_pos (Or.inr (by simp [h]))]
    · by_cases h1 : frame1.length = frame2.length
      · rw [if_pos (Or.inr (by rw [h1, h]; rfl))]
      · rw [if_pos (Or.inl h1)]
  · intro h
    simp only [calculate_frame_similarity]
    by_cases h1 : frame1.length ≠ frame2.length ∨ frame1.length = 0
    · rw [if_pos h1]
    · rw [if_neg h1, if_pos h]
  · intro hlen hne hn1 hn2
    simp only [calculate_frame_similarity]
    rw [if_neg, if_neg (by tauto)]
    push_neg
    exact ⟨hlen, by rwa [Ne, List.length_eq_zero]⟩

/-- C2 witness: at the concrete frames `[3, 4]` (norm 5) the guards are all
passed and the similarity takes the cosine form; degenerate inputs give 0. -/
theorem C2_calculate_frame_similarity_spec_witness :
    calculate_frame_similarity [(3:ℝ), 4] [(3:ℝ), 4] =
      (dotList [(3:ℝ), 4] [(3:ℝ), 4] /
        (normList [(3:ℝ), 4] * normList [(3:ℝ), 4]) + 1) / 2 ∧
    calculate_frame_similarity [] [(3:ℝ), 4] = 0 ∧
    calculate_frame_similarity [(3:ℝ), 4] [(3:ℝ)] = 0 := by
  refine ⟨(C2_calculate_frame_similarity_spec [(3:ℝ), 4] [(3:ℝ), 4]).2.2.1 rfl
      (by simp) ?_ ?_,
    (C2_calculate_frame_similarity_spec [] [(3:ℝ), 4]).1 (Or.inr (Or.inl rfl)),
    (C2_calculate_frame_similarity_spec [(3:ℝ), 4] [(3:ℝ)]).1 (Or.inl (by simp))⟩
  · rw [normList_34]; norm_num
  · rw [normList_34]; norm_num

/-- C3: `normalize_pose_frame` yields `[]` below 7 coordinate pairs and
exactly 22 values otherwise (never a partial frame), and
`normalize_pose_sequence` drops failing frames, so its output is never
longer than its input and every surviving frame has exactly 22 values. -/
theorem C3_normalize_shapes :
    (∀ coordinates : List (ℝ × ℝ), coordinates.length < 7 →
      normalize_pose_frame coordinates = []) ∧
    (∀ coordinates : List (ℝ × ℝ), 7 ≤ coordinates.length →
      (normalize_pose_frame coordinates).length = 22) ∧
    (∀ s : List (List ℝ), (normalize_pose_sequence s).length ≤ s.length) ∧
    (∀ s : List (List ℝ), ∀ f ∈ normalize_pose_sequence s, f.length = 22) :=
  ⟨fun _ h => normalize_pose_frame_of_short h,
   fun _ h => length_normalize_pose_frame h,
   length_normalize_pose_sequence_le,
   fun _ _ hf => mem_normalize_pose_sequence hf⟩

/-- C3 witness: a single coordinate pair normalizes to `[]`; seven pairs of
zeros normalize to a 22-value frame; the one-frame sequence of 26 zeros
keeps its single (non-empty) normalized frame, which has 22 values. -/
theorem C3_normalize_shapes_witness :
    normalize_pose_frame [((1:ℝ), (2:ℝ))] = [] ∧
    (normalize_pose_frame (List.replicate 7 ((0:ℝ), (0:ℝ)))).length = 22 ∧
    (normalize_pose_sequence [List.replicate 26 (0:ℝ)]).length ≤ 1 ∧
    (normalize_pose_frame
      (extract_coordinates_from_frame (List.replicate 26 (0:ℝ)))).length = 22 := by
  refine ⟨C3_normalize_shapes.1 _ (by simp),
    C3_normalize_shapes.2.1 _ (by simp),
    le_trans (C3_normalize_shapes.2.2.1 _) (by simp),
    C3_normalize_shapes.2.2.2 [List.replicate 26 (0:ℝ)] _ ?_⟩
  rw [normalize_sequence_cons_of_long (by simp) []]
  exact List.mem_cons_self _ _

/-- C5 counterexample: a raw frame with 26 values (fewer than 28) still
normalizes to a non-empty (22-value) frame, because
`extract_coordinates_from_frame` accepts a trailing `(x, y)` pair without
`z`/`visibility`, so 26 values already give the required 7 pairs. -/
theorem C5_counterexample_26_values :
    (List.replicate 26 (0:ℝ)).length < 28 ∧
    normalize_pose_frame
      (extract_coordinates_from_frame (List.replicate 26 (0:ℝ))) ≠ [] := by
  exact ⟨by simp, pipeline_ne_nil_of_long (by simp)⟩

/-- C5 (amended): the pipeline `extract_coordinates_from_frame` followed by
`normalize_pose_frame` yields `[]`, and the frame is dropped by
`normalize_pose_sequence`, exactly for frames with fewer than 26 values; a
frame produces a (22-value) normalized output iff it contains at least 26
values, i.e. the seventh landmark only needs its `x` and `y` slots. -/
theorem C5_amended_threshold_26 (frame : List ℝ) :
    (frame.length < 26 →
      normalize_pose_frame (extract_coordinates_from_frame frame) = [] ∧
      ∀ s : List (List ℝ),
        normalize_pose_sequence (frame :: s) = normalize_pose_sequence s) ∧
    (26 ≤ frame.length →
      (normalize_pose_frame (extract_coordinates_from_frame frame)).length = 22) :=
  ⟨fun h => ⟨pipeline_of_short h, normalize_sequence_cons_of_short h⟩,
   fun h => pipeline_of_long h⟩

/-- C5 witness: a 25-value frame is dropped, a 26-value frame survives. -/
theorem C5_amended_threshold_26_witness :
    normalize_pose_frame
      (extract_coordinates_from_frame (List.replicate 25 (0:ℝ))) = [] ∧
    normalize_pose_sequence [List.replicate 25 (0:ℝ)] = normalize_pose_sequence [] ∧
    (normalize_pose_frame
      (extract_coordinates_from_frame (List.replicate 26 (0:ℝ)))).length = 22 :=
  ⟨((C5_amended_threshold_26 (List.replicate 25 (0:ℝ))).1 (by simp)).1,
   ((C5_amended_threshold_26 (List.replicate 25 (0:ℝ))).1 (by simp)).2 [],
   (C5_amended_threshold_26 (List.replicate 26 (0:ℝ))).2 (by simp)⟩

/-! ## Scale invariance of normalization (claim C4)

The normalized frame of a pose with at least 7 coordinate pairs decomposes
as a scale-invariant part plus the contribution of the fixed hip/knee
offsets; the two parts are orthogonal, which bounds the cosine between the
normalizations of a pose and of its scaled copy. -/

/-- Explicit form of a normalized frame: the 22 output values of
`normalize_pose_frame` for points `(x0, y0) ... (x6, y6)` and a divisor
`w`. -/
noncomputable def nList (x0 y0 x1 y1 x2 y2 x3 y3 x4 y4 x5 y5 x6 y6 w : ℝ) : List ℝ :=
  [(x0 - (x1 + x2) / 2) / w, (y0 - (y1 + y2) / 2) / w,
   (x1 - (x1 + x2) / 2) / w, (y1 - (y1 + y2) / 2) / w,
   (x2 - (x1 + x2) / 2) / w, (y2 - (y1 + y2) / 2) / w,
   (x3 - (x1 + x2) / 2) / w, (y3 - (y1 + y2) / 2) / w,
   (x4 - (x1 + x2) / 2) / w, (y4 - (y1 + y2) / 2) / w,
   (x5 - (x1 + x2) / 2) / w, (y5 - (y1 + y2) / 2) / w,
   (x6 - (x1 + x2) / 2) / w, (y6 - (y1 + y2) / 2) / w,
   (x1 - (x1 + x2) / 2) / w, (y1 + 0.3 - (y1 + y2) / 2) / w,
   (x2 - (x1 + x2) / 2) / w, (y2 + 0.3 - (y1 + y2) / 2) / w,
   (x1 - (x1 + x2) / 2) / w, (y1 + 0.3 + 0.4 - (y1 + y2) / 2) / w,
   (x2 - (x1 + x2) / 2) / w, (y2 + 0.3 + 0.4 - (y1 + y2) / 2) / w]

lemma normalize_explicit (x0 y0 x1 y1 x2 y2 x3 y3 x4 y4 x5 y5 x6 y6 : ℝ)
    (rest : List (ℝ × ℝ)) :
    normalize_pose_frame ((x0, y0) :: (x1, y1) :: (x2, y2) :: (x3, y3) :: (x4, y4) ::
      (x5, y5) :: (x6, y6) :: rest) =
      nList x0 y0 x1 y1 x2 y2 x3 y3 x4 y4 x5 y5 x6 y6
        (if Real.sqrt ((x2 - x1) ^ 2 + (y2 - y1) ^ 2) = 0 then 1
         else Real.sqrt ((x2 - x1) ^ 2 + (y2 - y1) ^ 2)) := by
  rw [normalize_pose_frame, if_neg (by simp)]
  simp only [List.getD_cons_zero, List.getD_cons_succ, List.flatMap_cons, List.flatMap_nil,
    List.append_nil, List.cons_append, List.nil_append, nList]

lemma length_nList (x0 y0 x1 y1 x2 y2 x3 y3 x4 y4 x5 y5 x6 y6 w : ℝ) :
    (nList x0 y0 x1 y1 x2 y2 x3 y3 x4 y4 x5 y5 x6 y6 w).length = 22 := by
  simp [nList]

/-- Lower bound on the remapped cosine similarity from squared-dot-product
estimates. -/
lemma frame_similarity_gt_of_dots (u v : List ℝ) (hlen : u.length = v.length)
    (hne : u.length ≠ 0) (h1 : 0 < dotList u u) (h2 : 0 < dotList v v)
    (h3 : 0 < dotList u v)
    (h4 : 16 / 25 * (dotList u u * dotList v v) < dotList u v ^ 2) :
    9 / 10 < calculate_frame_similarity u v := by
  have hn1 : 0 < normList u := Real.sqrt_pos.mpr h1
  have hn2 : 0 < normList v := Real.sqrt_pos.mpr h2
  simp only [calculate_frame_similarity]
  rw [if_neg (by push_neg; exact ⟨hlen, hne⟩), if_neg (by push_neg; exact ⟨hn1.ne', hn2.ne'⟩)]
  have hprodsq : (normList u * normList v) ^ 2 = dotList u u * dotList v v := by
    rw [mul_pow, sq_normList, sq_normList]
  have hsq : (4 / 5 * (normList u * normList v)) ^ 2 < dotList u v ^ 2 := by
    rw [mul_pow, hprodsq]
    nlinarith [h4]
  have key : 4 / 5 * (normList u * normList v) < dotList u v :=
    lt_of_pow_lt_pow_left 2 h3.le hsq
  have hd : 4 / 5 < dotList u v / (normList u * normList v) := by
    rw [lt_div_iff (by positivity)]
    linarith
  linarith

/-- Scale-invariant part of the squared norm of a normalized frame: the
hip/knee entries repeat the shoulder entries, hence the factor 3. -/
noncomputable def Xsum (x0 y0 x1 y1 x2 y2 x3 y3 x4 y4 x5 y5 x6 y6 w : ℝ) : ℝ :=
  ((x0 - (x1 + x2) / 2) / w) ^ 2 + ((y0 - (y1 + y2) / 2) / w) ^ 2 +
  ((x3 - (x1 + x2) / 2) / w) ^ 2 + ((y3 - (y1 + y2) / 2) / w) ^ 2 +
  ((x4 - (x1 + x2) / 2) / w) ^ 2 + ((y4 - (y1 + y2) / 2) / w) ^ 2 +
  ((x5 - (x1 + x2) / 2) / w) ^ 2 + ((y5 - (y1 + y2) / 2) / w) ^ 2 +
  ((x6 - (x1 + x2) / 2) / w) ^ 2 + ((y6 - (y1 + y2) / 2) / w) ^ 2 +
  3 * (((x1 - (x1 + x2) / 2) / w) ^ 2 + ((y1 - (y1 + y2) / 2) / w) ^ 2 +
       ((x2 - (x1 + x2) / 2) / w) ^ 2 + ((y2 - (y1 + y2) / 2) / w) ^ 2)

lemma Xsum_nonneg (x0 y0 x1 y1 x2 y2 x3 y3 x4 y4 x5 y5 x6 y6 w : ℝ) :
    0 ≤ Xsum x0 y0 x1 y1 x2 y2 x3 y3 x4 y4 x5 y5 x6 y6 w := by
  unfold Xsum
  positivity

set_option maxHeartbeats 1000000 in
lemma dotB_self (x0 y0 x1 y1 x2 y2 x3 y3 x4 y4 x5 y5 x6 y6 w : ℝ) (hw : w ≠ 0) :
    dotList (nList x0 y0 x1 y1 x2 y2 x3 y3 x4 y4 x5 y5 x6 y6 w)
        (nList x0 y0 x1 y1 x2 y2 x3 y3 x4 y4 x5 y5 x6 y6 w) =
      Xsum x0 y0 x1 y1 x2 y2 x3 y3 x4 y4 x5 y5 x6 y6 w + (29 / 25) / w ^ 2 := by
  simp only [nList, dotList, List.zipWith_cons_cons, List.zipWith_nil_right, List.sum_cons,
    List.sum_nil, Xsum]
  field_simp
  ring

set_option maxHeartbeats 1000000 in
lemma dotB_scaled (x0 y0 x1 y1 x2 y2 x3 y3 x4 y4 x5 y5 x6 y6 w k : ℝ)
    (hw : w ≠ 0) (hk : k ≠ 0) :
    dotList
        (nList (k*x0) (k*y0) (k*x1) (k*y1) (k*x2) (k*y2) (k*x3) (k*y3) (k*x4) (k*y4)
          (k*x5) (k*y5) (k*x6) (k*y6) (k*w))
        (nList (k*x0) (k*y0) (k*x1) (k*y1) (k*x2) (k*y2) (k*x3) (k*y3) (k*x4) (k*y4)
          (k*x5) (k*y5) (k*x6) (k*y6) (k*w)) =
      Xsum x0 y0 x1 y1 x2 y2 x3 y3 x4 y4 x5 y5 x6 y6 w + (29 / 25) / w ^ 2 / k ^ 2 := by
  simp only [nList, dotList, List.zipWith_cons_cons, List.zipWith_nil_right, List.sum_cons,
    List.sum_nil, Xsum]
  field_simp
  ring

set_option maxHeartbeats 1000000 in
lemma dotB_cross (x0 y0 x1 y1 x2 y2 x3 y3 x4 y4 x5 y5 x6 y6 w k : ℝ)
    (hw : w ≠ 0) (hk : k ≠ 0) :
    dotList (nList x0 y0 x1 y1 x2 y2 x3 y3 x4 y4 x5 y5 x6 y6 w)
        (nList (k*x0) (k*y0) (k*x1) (k*y1) (k*x2) (k*y2) (k*x3) (k*y3) (k*x4) (k*y4)
          (k*x5) (k*y5) (k*x6) (k*y6) (k*w)) =
      Xsum x0 y0 x1 y1 x2 y2 x3 y3 x4 y4 x5 y5 x6 y6 w + (29 / 25) / w ^ 2 / k := by
  simp only [nList, dotList, List.zipWith_cons_cons, List.zipWith_nil_right, List.sum_cons,
    List.sum_nil, Xsum]
  field_simp
  ring

set_option maxHeartbeats 1000000 in
lemma dotA_self (x0 y0 x1 y1 x3 y3 x4 y4 x5 y5 x6 y6 : ℝ) :
    dotList (nList x0 y0 x1 y1 x1 y1 x3 y3 x4 y4 x5 y5 x6 y6 1)
        (nList x0 y0 x1 y1 x1 y1 x3 y3 x4 y4 x5 y5 x6 y6 1) =
      Xsum x0 y0 x1 y1 x1 y1 x3 y3 x4 y4 x5 y5 x6 y6 1 + 29 / 25 := by
  simp only [nList, dotList, List.zipWith_cons_cons, List.zipWith_nil_right, List.sum_cons,
    List.sum_nil, Xsum]
  norm_num
  ring

set_option maxHeartbeats 1000000 in
lemma dotA_scaled (x0 y0 x1 y1 x3 y3 x4 y4 x5 y5 x6 y6 k : ℝ) :
    dotList
        (nList (k*x0) (k*y0) (k*x1) (k*y1) (k*x1) (k*y1) (k*x3) (k*y3) (k*x4) (k*y4)
          (k*x5) (k*y5) (k*x6) (k*y6) 1)
        (nList (k*x0) (k*y0) (k*x1) (k*y1) (k*x1) (k*y1) (k*x3) (k*y3) (k*x4) (k*y4)
          (k*x5) (k*y5) (k*x6) (k*y6) 1) =
      k ^ 2 * Xsum x0 y0 x1 y1 x1 y1 x3 y3 x4 y4 x5 y5 x6 y6 1 + 29 / 25 := by
  simp only [nList, dotList, List.zipWith_cons_cons, List.zipWith_nil_right, List.sum_cons,
    List.sum_nil, Xsum]
  norm_num
  ring

set_option maxHeartbeats 1000000 in
lemma dotA_cross (x0 y0 x1 y1 x3 y3 x4 y4 x5 y5 x6 y6 k : ℝ) :
    dotList (nList x0 y0 x1 y1 x1 y1 x3 y3 x4 y4 x5 y5 x6 y6 1)
        (nList (k*x0) (k*y0) (k*x1) (k*y1) (k*x1) (k*y1) (k*x3) (k*y3) (k*x4) (k*y4)
          (k*x5) (k*y5) (k*x6) (k*y6) 1) =
      k * Xsum x0 y0 x1 y1 x1 y1 x3 y3 x4 y4 x5 y5 x6 y6 1 + 29 / 25 := by
  simp only [nList, dotList, List.zipWith_cons_cons, List.zipWith_nil_right, List.sum_cons,
    List.sum_nil, Xsum]
  norm_num
  ring

/-- Final quadratic estimate behind the scale-invariance bound. -/
lemma quad_bound (X Y k : ℝ) (hX : 0 ≤ X) (hY : 0 < Y)
    (hk : k = 1/2 ∨ k = 11/10 ∨ k = 3/2 ∨ k = 2) :
    16 / 25 * ((X + Y) * (X + Y / k ^ 2)) < (X + Y / k) ^ 2 := by
  rcases hk with rfl | rfl | rfl | rfl <;> ring_nf <;>
    nlinarith [sq_nonneg X, mul_pos hY hY, mul_nonneg hX hY.le, sq_nonneg Y]

/-- Same estimate for the degenerate-shoulder case (width 1). -/
lemma quad_bound_unit (X k : ℝ) (hX : 0 ≤ X)
    (hk : k = 1/2 ∨ k = 11/10 ∨ k = 3/2 ∨ k = 2) :
    16 / 25 * ((X + 29/25) * (k ^ 2 * X + 29/25)) < (k * X + 29/25) ^ 2 := by
  rcases hk with rfl | rfl | rfl | rfl <;> ring_nf <;> nlinarith [sq_nonneg X]

set_option maxHeartbeats 1000000 in
/-- Core of the scale-invariance bound, on an explicit 7-point frame. -/
lemma C4_core (x0 y0 x1 y1 x2 y2 x3 y3 x4 y4 x5 y5 x6 y6 k : ℝ)
    (r1 r2 : List (ℝ × ℝ))
    (hk : k = 1/2 ∨ k = 11/10 ∨ k = 3/2 ∨ k = 2) :
    9 / 10 < calculate_frame_similarity
      (normalize_pose_frame ((x0, y0) :: (x1, y1) :: (x2, y2) :: (x3, y3) :: (x4, y4) ::
        (x5, y5) :: (x6, y6) :: r1))
      (normalize_pose_frame ((k*x0, k*y0) :: (k*x1, k*y1) :: (k*x2, k*y2) :: (k*x3, k*y3) ::
        (k*x4, k*y4) :: (k*x5, k*y5) :: (k*x6, k*y6) :: r2)) := by
  have hk0 : 0 < k := by rcases hk with rfl | rfl | rfl | rfl <;> norm_num
  rw [normalize_explicit, normalize_explicit]
  by_cases hsw : Real.sqrt ((x2 - x1) ^ 2 + (y2 - y1) ^ 2) = 0
  · -- degenerate shoulders: both widths fall back to 1
    have hd_le : (x2 - x1) ^ 2 + (y2 - y1) ^ 2 ≤ 0 := Real.sqrt_eq_zero'.mp hsw
    have hx2 : x2 = x1 := by nlinarith [sq_nonneg (x2 - x1), sq_nonneg (y2 - y1)]
    have hy2 : y2 = y1 := by nlinarith [sq_nonneg (x2 - x1), sq_nonneg (y2 - y1)]
    rw [hx2, hy2]
    rw [show (x1 - x1) ^ 2 + (y1 - y1) ^ 2 = (0:ℝ) by ring, Real.sqrt_zero]
    rw [show (k * x1 - k * x1) ^ 2 + (k * y1 - k * y1) ^ 2 = (0:ℝ) by ring, Real.sqrt_zero]
    rw [if_pos (rfl : (0:ℝ) = 0)]
    have hX := Xsum_nonneg x0 y0 x1 y1 x1 y1 x3 y3 x4 y4 x5 y5 x6 y6 1
    apply frame_similarity_gt_of_dots
    · rw [length_nList, length_nList]
    · rw [length_nList]; norm_num
    · rw [dotA_self]; nlinarith [hX]
    · rw [dotA_scaled]; nlinarith [mul_nonneg (sq_nonneg k) hX]
    · rw [dotA_cross]; nlinarith [mul_nonneg hk0.le hX]
    · rw [dotA_self, dotA_scaled, dotA_cross]
      exact quad_bound_unit (Xsum x0 y0 x1 y1 x1 y1 x3 y3 x4 y4 x5 y5 x6 y6 1) k hX hk
  · -- separated shoulders: widths are w and k * w
    have hw_pos : 0 < Real.sqrt ((x2 - x1) ^ 2 + (y2 - y1) ^ 2) :=
      lt_of_le_of_ne (Real.sqrt_nonneg _) (Ne.symm hsw)
    have hscaled : Real.sqrt ((k*x2 - k*x1) ^ 2 + (k*y2 - k*y1) ^ 2) =
        k * Real.sqrt ((x2 - x1) ^ 2 + (y2 - y1) ^ 2) := by
      rw [show (k*x2 - k*x1) ^ 2 + (k*y2 - k*y1) ^ 2 =
        k ^ 2 * ((x2 - x1) ^ 2 + (y2 - y1) ^ 2) by ring,
        Real.sqrt_mul (sq_nonneg k), Real.sqrt_sq hk0.le]
    rw [hscaled, if_neg hsw, if_neg (mul_pos hk0 hw_pos).ne']
    set w := Real.sqrt ((x2 - x1) ^ 2 + (y2 - y1) ^ 2) with hw_def
    have hX := Xsum_nonneg x0 y0 x1 y1 x2 y2 x3 y3 x4 y4 x5 y5 x6 y6 w
    have hY : 0 < (29:ℝ) / 25 / w ^ 2 := div_pos (by norm_num) (pow_pos hw_pos 2)
    have hYk2 : 0 < (29:ℝ) / 25 / w ^ 2 / k ^ 2 := div_pos hY (pow_pos hk0 2)
    have hYk : 0 < (29:ℝ) / 25 / w ^ 2 / k := div_pos hY hk0
    apply frame_similarity_gt_of_dots
    · rw [length_nList, length_nList]
    · rw [length_nList]; norm_num
    · rw [dotB_self _ _ _ _ _ _ _ _ _ _ _ _ _ _ _ hw_pos.ne']; nlinarith [hX, hY]
    · rw [dotB_scaled _ _ _ _ _ _ _ _ _ _ _ _ _ _ _ _ hw_pos.ne' hk0.ne']
      nlinarith [hX, hYk2]
    · rw [dotB_cross _ _ _ _ _ _ _ _ _ _ _ _ _ _ _ _ hw_pos.ne' hk0.ne']
      nlinarith [hX, hYk]
    · rw [dotB_self _ _ _ _ _ _ _ _ _ _ _ _ _ _ _ hw_pos.ne',
        dotB_scaled _ _ _ _ _ _ _ _ _ _ _ _ _ _ _ _ hw_pos.ne' hk0.ne',
        dotB_cross _ _ _ _ _ _ _ _ _ _ _ _ _ _ _ _ hw_pos.ne' hk0.ne']
      exact quad_bound (Xsum x0 y0 x1 y1 x2 y2 x3 y3 x4 y4 x5 y5 x6 y6 w)
        (29 / 25 / w ^ 2) k hX hY hk

/-- C4: for every pose frame with at least 7 coordinate pairs and every
scale factor k in 1/2, 11/10, 3/2, 2, normalizing the frame with all
coordinates multiplied by k yields a frame whose similarity against the
normalization of the unscaled frame exceeds 0.9 (the fixed +0.3/+0.4
hip/knee offsets do not scale, so the frames are not identical, but the
offset contribution is orthogonal to the scale-invariant part). -/
theorem C4_scale_invariance (coordinates : List (ℝ × ℝ)) (h7 : 7 ≤ coordinates.length)
    (k : ℝ) (hk : k = 1/2 ∨ k = 11/10 ∨ k = 3/2 ∨ k = 2) :
    9 / 10 < calculate_frame_similarity (normalize_pose_frame coordinates)
      (normalize_pose_frame (coordinates.map fun p => (k * p.1, k * p.2))) := by
  rcases coordinates with _ | ⟨c0, _ | ⟨c1, _ | ⟨c2, _ | ⟨c3, _ | ⟨c4, _ | ⟨c5, _ | ⟨c6, rest⟩⟩⟩⟩⟩⟩⟩ <;>
    simp only [List.length_cons, List.length_nil] at h7
  · omega
  · omega
  · omega
  · omega
  · omega
  · omega
  · omega
  · obtain ⟨x0, y0⟩ := c0
    obtain ⟨x1, y1⟩ := c1
    obtain ⟨x2, y2⟩ := c2
    obtain ⟨x3, y3⟩ := c3
    obtain ⟨x4, y4⟩ := c4
    obtain ⟨x5, y5⟩ := c5
    obtain ⟨x6, y6⟩ := c6
    simp only [List.map_cons]
    exact C4_core x0 y0 x1 y1 x2 y2 x3 y3 x4 y4 x5 y5 x6 y6 k _ _ hk

/-- C4 witness: the spec's concrete "standing" frame scaled by 2. -/
theorem C4_scale_invariance_witness :
    9 / 10 < calculate_frame_similarity
      (normalize_pose_frame [((0.5:ℝ), (0.2:ℝ)), (0.35, 0.4), (0.65, 0.4), (0.25, 0.6),
        (0.75, 0.6), (0.15, 0.8), (0.85, 0.8)])
      (normalize_pose_frame ([((0.5:ℝ), (0.2:ℝ)), (0.35, 0.4), (0.65, 0.4), (0.25, 0.6),
        (0.75, 0.6), (0.15, 0.8), (0.85, 0.8)].map fun p => (2 * p.1, 2 * p.2))) :=
  C4_scale_invariance _ (by simp) 2 (by norm_num)

/-! ## pose_cache.py: content hashing

`generate_sequence_hash` is `sha256(json.dumps(seq, sort_keys=True))`.
`hashlib.sha256` and `json.dumps` are Python standard-library collaborators,
so they are modelled from their documented behaviour: SHA-256 exactly as in
FIPS 180-4 (32-bit words as naturals reduced mod `2^32`), and `json.dumps`
of a list of lists of floats as the bracketed, comma-space separated decimal
rendering (`sort_keys` is irrelevant for lists).  Floats are modelled as the
rationals they denote; `pyFloatRepr` agrees with Python's shortest-repr on
every finite-decimal value used in this development. -/

def M32 : ℕ := 4294967296

def rotr (x n : ℕ) : ℕ := ((x >>> n) ||| (x <<< (32 - n))) % M32

def shaK : List ℕ := [1116352408, 1899447441, 3049323471, 3921009573, 961987163, 1508970993,
  2453635748, 2870763221, 3624381080, 310598401, 607225278, 1426881987, 1925078388, 2162078206,
  2614888103, 3248222580, 3835390401, 4022224774, 264347078, 604807628, 770255983, 1249150122,
  1555081692, 1996064986, 2554220882, 2821834349, 2952996808, 3210313671, 3336571891, 3584528711,
  113926993, 338241895, 666307205, 773529912, 1294757372, 1396182291, 1695183700, 1986661051,
  2177026350, 2456956037, 2730485921, 2820302411, 3259730800, 3345764771, 3516065817, 3600352804,
  4094571909, 275423344, 430227734, 506948616, 659060556, 883997877, 958139571, 1322822218,
  1537002063, 1747873779, 1955562222, 2024104815, 2227730452, 2361852424, 2428436474, 2756734187,
  3204031479, 3329325298]

def shaH0 : List ℕ := [1779033703, 3144134277, 1013904242, 2773480762, 1359893119, 2600822924,
  528734635, 1541459225]

def bS0 (x : ℕ) : ℕ := (rotr x 2) ^^^ (rotr x 13) ^^^ (rotr x 22)

def bS1 (x : ℕ) : ℕ := (rotr x 6) ^^^ (rotr x 11) ^^^ (rotr x 25)

def sS0 (x : ℕ) : ℕ := (rotr x 7) ^^^ (rotr x 18) ^^^ (x >>> 3)

def sS1 (x : ℕ) : ℕ := (rotr x 17) ^^^ (rotr x 19) ^^^ (x >>> 10)

def shaCh (e f g : ℕ) : ℕ := (e &&& f) ^^^ ((e ^^^ 4294967295) &&& g)

def shaMaj (a b c : ℕ) : ℕ := (a &&& b) ^^^ (a &&& c) ^^^ (b &&& c)

def shaPad (msg : List ℕ) : List ℕ :=
  let L := msg.length
  let z := (119 - (L % 64)) % 64
  msg ++ [128] ++ List.replicate z 0 ++
    (List.range 8).map (fun i => ((8 * L) >>> (56 - 8 * i)) % 256)

def words16 (block : List ℕ) : List ℕ :=
  (List.range 16).map (fun i =>
    block.getD (4*i) 0 * 16777216 + block.getD (4*i+1) 0 * 65536 +
    block.getD (4*i+2) 0 * 256 + block.getD (4*i+3) 0)

def msgSchedule (block : List ℕ) : List ℕ :=
  (List.range 48).foldl (fun w t =>
    w ++ [(sS1 (w.getD (t+14) 0) + w.getD (t+9) 0 + sS0 (w.getD (t+1) 0) + w.getD t 0) % M32])
    (words16 block)

def compressBlock (h : List ℕ) (block : List ℕ) : List ℕ :=
  let w := msgSchedule block
  let s := (List.zip shaK w).foldl (fun st kw =>
    match st with
    | [a, b, c, d, e, f, g, hh] =>
      let t1 := (hh + bS1 e + shaCh e f g + kw.1 + kw.2) % M32
      let t2 := (bS0 a + shaMaj a b c) % M32
      [(t1 + t2) % M32, a, b, c, (d + t1) % M32, e, f, g]
    | other => other) h
  (List.zip h s).map (fun p => (p.1 + p.2) % M32)

def chunks64Aux : ℕ → List ℕ → List (List ℕ)
  | 0, _ => []
  | _ + 1, [] => []
  | n + 1, x :: xs => (x :: xs).take 64 :: chunks64Aux n ((x :: xs).drop 64)

def chunks64 (l : List ℕ) : List (List ℕ) := chunks64Aux l.length l

def sha256Words (msg : List ℕ) : List ℕ :=
  (chunks64 (shaPad msg)).foldl compressBlock shaH0

/-- SHA-256 digest as a natural number below `2^256` (the eight 32-bit words
assemble big-endian; the final reduction makes the bound syntactic and does
not change the value, as every word is already below `2^32`). -/
def sha256Nat (msg : List ℕ) : ℕ :=
  ((sha256Words msg).foldl (fun acc h => acc * M32 + h % M32) 0) % (2 ^ 256)

def hexChar (n : ℕ) : Char := Char.ofNat (if n < 10 then 48 + n else 87 + n)

/-- The 64-character lowercase hex rendering used by `hexdigest()`. -/
def hexDigest (d : ℕ) : String :=
  String.mk ((List.range 64).map (fun i => hexChar ((d >>> (4 * (63 - i))) % 16)))

def strBytes (s : String) : List ℕ := s.toList.map Char.toNat

/-- Exact decimal exponent of a finite-decimal rational, when at most 17. -/
def decExponent (q : ℚ) : Option ℕ :=
  (List.range 18).find? fun e => (q * 10 ^ e).den == 1

/-- Modelled from the spec: Python's `repr` of a float, for the values that
render in plain decimal form (integers as `n.0`, finite decimals by their
shortest exact expansion).  Values with no finite decimal expansion of at
most 17 digits cannot arise from IEEE doubles in this range; the fallback
keeps the function total. -/
def pyFloatRepr (q : ℚ) : String :=
  if q.den == 1 then toString q.num ++ (".0")
  else
    match decExponent q with
    | some e =>
      let m := (q * 10 ^ e).num
      let a := m.natAbs
      let ip := a / 10 ^ e
      let fs := toString (a % 10 ^ e)
      let pad := String.mk (List.replicate (e - fs.length) (Char.ofNat 48))
      (if m < 0 then ("-") else ("")) ++ toString ip ++ (".") ++ pad ++ fs
    | none => toString q

/-- Separator join, Python's `", ".join` as produced by `json.dumps`. -/
def joinSep (sep : String) : List String → String
  | [] => ""
  | [x] => x
  | x :: y :: rest => x ++ sep ++ joinSep sep (y :: rest)

/-- Modelled from the spec: `json.dumps` of one frame (list of floats). -/
def jsonFloatList (frame : List ℚ) : String :=
  "[" ++ joinSep (", ") (frame.map pyFloatRepr) ++ "]"

/-- Modelled from the spec: `json.dumps(pose_sequence, sort_keys=True)`; for
a list of lists of numbers key sorting is a no-op and the canonical text is
the nested bracketed form. -/
def jsonDumpsSequence (pose_sequence : List (List ℚ)) : String :=
  "[" ++ joinSep (", ") (pose_sequence.map jsonFloatList) ++ "]"

/-- Embeds `PoseCacheManager.generate_sequence_hash`:
`hashlib.sha256(json.dumps(pose_sequence, sort_keys=True).encode()).hexdigest()`. -/
def generate_sequence_hash (pose_sequence : List (List ℚ)) : String :=
  hexDigest (sha256Nat (strBytes (jsonDumpsSequence pose_sequence)))

/-! ## Claim C6: determinism and limits of content hashing -/

lemma sha256Nat_lt (msg : List ℕ) : sha256Nat msg < 2 ^ 256 :=
  Nat.mod_lt _ (by norm_num)

lemma joinSep_replicate_length (sep x : String) :
    ∀ n : ℕ, (joinSep sep (List.replicate (n + 1) x)).length =
      x.length + n * (sep.length + x.length) := by
  intro n
  induction n with
  | zero => simp [joinSep]
  | succ m ih =>
    rw [List.replicate_succ, List.replicate_succ]
    rw [show joinSep sep (x :: x :: List.replicate m x) =
      x ++ sep ++ joinSep sep (x :: List.replicate m x) from rfl]
    rw [← List.replicate_succ, String.length_append, String.length_append, ih]
    ring

lemma jsonFloatList_zero : jsonFloatList [(0:ℚ)] = "[0.0]" := by decide

lemma fam_length_zero : (jsonDumpsSequence (List.replicate 0 [(0:ℚ)])).length = 2 := by decide

lemma fam_length_succ (n : ℕ) :
    (jsonDumpsSequence (List.replicate (n + 1) [(0:ℚ)])).length = 7 * n + 7 := by
  unfold jsonDumpsSequence
  rw [List.map_replicate, jsonFloatList_zero]
  rw [String.length_append, String.length_append, joinSep_replicate_length]
  rw [show ("[" : String).length = 1 from rfl, show ("]" : String).length = 1 from rfl,
    show ("[0.0]" : String).length = 5 from rfl, show ((", ") : String).length = 2 from rfl]
  omega

/-- C6 counterexample: the claim's "if and only if" cannot hold, because the
digest space is finite (64 hex characters) while the serializations of the
sequences `[[0.0]] * n` are pairwise distinct: some two distinct
serializations must share a hash. -/
theorem C6_counterexample_hash_iff_fails :
    ¬ ∀ s t : List (List ℚ),
        generate_sequence_hash s = generate_sequence_hash t ↔
          jsonDumpsSequence s = jsonDumpsSequence t := by
  intro H
  have hser : Function.Injective
      fun n : ℕ => jsonDumpsSequence (List.replicate n [(0:ℚ)]) := by
    intro a b hab
    simp only [] at hab
    have hl := congrArg String.length hab
    rcases a with _ | a <;> rcases b with _ | b
    · rfl
    · rw [fam_length_zero, fam_length_succ] at hl; omega
    · rw [fam_length_succ, fam_length_zero] at hl; omega
    · rw [fam_length_succ, fam_length_succ] at hl; omega
  have hinj : Function.Injective
      fun n : ℕ => generate_sequence_hash (List.replicate n [(0:ℚ)]) := by
    intro a b hab
    simp only [] at hab
    exact hser ((H (List.replicate a [(0:ℚ)]) (List.replicate b [(0:ℚ)])).mp hab)
  have hfin : (hexDigest '' (Set.Iio (2 ^ 256))).Finite := (Set.finite_Iio _).image _
  have hmem : ∀ n : ℕ, generate_sequence_hash (List.replicate n [(0:ℚ)]) ∈
      hexDigest '' (Set.Iio (2 ^ 256)) := fun n =>
    ⟨sha256Nat (strBytes (jsonDumpsSequence (List.replicate n [(0:ℚ)]))), sha256Nat_lt _, rfl⟩
  exact (Set.infinite_of_injective_forall_mem hinj hmem) hfin

/-- C6 (amended): `generate_sequence_hash` is a pure deterministic function
of the key-sorted JSON canonical serialization — byte-identical canonical
serializations always receive identical hashes — and it is order-sensitive
in the concrete sense: swapping the two frames `[0.0]` and `[1.0]` changes
the serialization and changes the SHA-256 digest.  The converse implication
(equal hashes only for equal serializations) cannot hold for all sequences
since the digest space is finite. -/
theorem C6_amended_hash_of_serialization :
    (∀ s t : List (List ℚ), jsonDumpsSequence s = jsonDumpsSequence t →
      generate_sequence_hash s = generate_sequence_hash t) ∧
    jsonDumpsSequence [[(0:ℚ)], [1]] ≠ jsonDumpsSequence [[(1:ℚ)], [0]] ∧
    generate_sequence_hash [[(0:ℚ)], [1]] ≠ generate_sequence_hash [[(1:ℚ)], [0]] := by
  refine ⟨?_, by decide, by decide⟩
  intro s t h
  unfold generate_sequence_hash
  rw [h]

/-- C6 witness: the congruence applied at a concrete pair of equal
serializations, plus the concrete order-sensitivity instance. -/
theorem C6_amended_hash_of_serialization_witness :
    generate_sequence_hash [[(0:ℚ)]] = generate_sequence_hash [[(0:ℚ)]] ∧
    generate_sequence_hash [[(0:ℚ)], [1]] ≠ generate_sequence_hash [[(1:ℚ)], [0]] :=
  ⟨C6_amended_hash_of_serialization.1 [[(0:ℚ)]] [[(0:ℚ)]] rfl,
   C6_amended_hash_of_serialization.2.2⟩

/-! ## pose_cache.py: the three cache tables as state

The persistent store is modelled as lists of rows with the columns of the
alembic migration `2d483713e6c1_add_pose_analysis_tables`.  `NOW()` is an
explicit `now : ℤ` argument (timestamps counted in days, matching the
`timedelta(days=...)` TTLs), `uuid4()` an explicit `newId` argument, and
reachability of the store an `avail : Bool` flag: when the store is
unreachable every statement raises on connection.

The decisive source fact about the statements themselves: every query of
`pose_cache.py` uses named `%(name)s` placeholders and a params dict, but
`Table.sql` (table.py lines 26-32) converts that dict to a *positional
tuple* before handing it to psycopg's `cursor.execute`
(database.py `execute_query`).  psycopg requires a mapping to bind named
placeholders — and the sequence-match SELECT does not even have matching
arity, five placeholder slots (`hash_a` and `hash_b` twice each, plus
`version`) for the three tuple values — so the statement raises in the
driver *before* executing, whether or not the store is reachable.  Control
then lands in the method's blanket `except`, which returns the fallback
(`None` / `False` / the zeroed stats dict) and leaves the store untouched.
Each method below is therefore its fallback on both branches of `avail`:
the hit paths and writes of the source are dead code.  JSONB payloads that
no claim inspects are kept as opaque values. -/

structure VideoRow where
  id : ℕ
  video_id : ℕ
  analysis_version : String
  pose_sequences : List (List ℚ)
  normalized_poses : List (List ℚ)
  movement_analysis : String
  frame_count : ℕ
  confidence_avg : ℚ
  processing_time_ms : ℤ
  file_size_bytes : ℤ
  created_at : ℤ
  last_accessed : ℤ

structure MatchRow where
  id : ℕ
  sequence_a_hash : String
  sequence_b_hash : String
  similarity_score : ℝ
  match_confidence : String
  algorithm_version : String
  computation_time_ms : ℤ
  created_at : ℤ
  access_count : ℕ
  last_accessed : ℤ

structure OverlayRow where
  id : ℕ
  video_id : ℕ
  overlay_type : String
  overlay_dimensions : String
  placement_suggestions : String
  analysis_metadata : String
  cache_version : String
  confidence_score : ℝ
  created_at : ℤ
  access_count : ℕ
  last_accessed : ℤ

structure Store where
  video_pose_analysis : List VideoRow
  pose_sequence_matches : List MatchRow
  smart_overlay_cache : List OverlayRow

def emptyStore : Store := ⟨[], [], []⟩

def CURRENT_ANALYSIS_VERSION : String := "1.0"

def CURRENT_ALGORITHM_VERSION : String := "1.0"

def CURRENT_CACHE_VERSION : String := "1.0"

def POSE_ANALYSIS_TTL_DAYS : ℤ := 30

def SEQUENCE_MATCH_TTL_DAYS : ℤ := 7

def OVERLAY_CACHE_TTL_DAYS : ℤ := 14

/-- Embeds `PoseCacheManager.format_dimensions`. -/
def format_dimensions (width height : ℕ) : String :=
  toString width ++ ("x") ++ toString height

/-- Embeds `PoseCacheManager._calculate_average_confidence`: mean of every
fourth value starting at index 3 (a pure helper, no database access). -/
def _calculate_average_confidence (pose_sequences : List (List ℚ)) : ℚ :=
  let cs := pose_sequences.flatMap fun s =>
    (List.range s.length).filterMap fun i =>
      if i % 4 == 3 then some (s.getD i 0) else none
  if cs.length == 0 then 0 else cs.sum / cs.length

/-- Embeds `PoseCacheManager.get_sequence_match` (pose_cache.py 195-225):
the method hashes both sequences and issues the two-hash-order SELECT
through `Table.sql` with a 3-entry params dict; the statement has five
named placeholder slots (`hash_a` and `hash_b` twice each, plus `version`)
and the dict arrives in psycopg as a positional 3-tuple, so the driver
raises before the SELECT executes and the blanket `except` returns `None`.
With the store unreachable the statement raises on connection instead.
Either way the method is a miss and the store is never read or written. -/
def get_sequence_match (avail : Bool) (now : ℤ) (st : Store)
    (sequence_a sequence_b : List (List ℚ)) : Option ℝ × Store :=
  if avail then
    -- reachable store: the SELECT raises in the driver (named
    -- placeholders, positional params); except-handler returns None
    (none, st)
  else
    -- unreachable store: the statement raises on connection
    (none, st)

/-- Embeds `PoseCacheManager.cache_sequence_match` (pose_cache.py 227-286):
the INSERT .. ON CONFLICT has seven named placeholders and `Table.sql`
passes the params positionally, so the statement raises before executing
and the blanket `except` returns `False`; the row (and the NUMERIC(6,5)
rounding its `similarity_score` column would impose) is never written. -/
def cache_sequence_match (avail : Bool) (now : ℤ) (newId : ℕ) (st : Store)
    (sequence_a sequence_b : List (List ℚ)) (similarity_score : ℝ)
    (computation_time_ms : ℤ) : Bool × Store :=
  if avail then
    -- the INSERT raises in the driver; except-handler returns False
    (false, st)
  else
    (false, st)

/-- Embeds `PoseCacheManager.get_video_pose_analysis` (pose_cache.py
100-123): the SELECT's two named placeholders cannot be bound from the
positional 2-tuple `Table.sql` builds, so the call raises and the blanket
`except` returns `None`; the hit path (`_update_access_time`) is dead
code. -/
def get_video_pose_analysis (avail : Bool) (now : ℤ) (st : Store) (video_id : ℕ) :
    Option VideoRow × Store :=
  if avail then
    (none, st)
  else
    (none, st)

/-- Embeds `PoseCacheManager.cache_video_pose_analysis` (pose_cache.py
125-193): frame count and average confidence are computed, then the INSERT
.. ON CONFLICT raises on its named placeholders and the method returns
`False`; nothing is ever written. -/
def cache_video_pose_analysis (avail : Bool) (now : ℤ) (newId : ℕ) (st : Store)
    (video_id : ℕ) (pose_sequences normalized_poses : List (List ℚ))
    (movement_analysis : String) (processing_time_ms file_size_bytes : ℤ) :
    Bool × Store :=
  if avail then
    (false, st)
  else
    (false, st)

/-- Embeds `PoseCacheManager.get_smart_overlay_cache`: same
named-placeholder/positional-tuple failure on its SELECT — always a miss,
store untouched, the access-bump of the hit path is dead code. -/
def get_smart_overlay_cache (avail : Bool) (now : ℤ) (st : Store) (video_id : ℕ)
    (overlay_type : String) (width height : ℕ) :
    Option (String × String × ℝ) × Store :=
  if avail then
    (none, st)
  else
    (none, st)

/-- Embeds `PoseCacheManager.cache_smart_overlay_placement`: same failure
on its INSERT — always returns `False`, the upsert is dead code. -/
def cache_smart_overlay_placement (avail : Bool) (now : ℤ) (newId : ℕ) (st : Store)
    (video_id : ℕ) (overlay_type : String) (width height : ℕ)
    (placement_suggestions analysis_metadata : String) (confidence_score : ℝ) :
    Bool × Store :=
  if avail then
    (false, st)
  else
    (false, st)

structure CleanupStats where
  pose_analysis : ℕ
  sequence_matches : ℕ
  overlay_cache : ℕ

/-- Embeds `PoseCacheManager.cleanup_expired_cache` (pose_cache.py
389-423): the first DELETE is issued through `Table.sql` with a named
`%(cutoff)s` placeholder and a positional 1-tuple of params, so psycopg
raises before the statement executes; the blanket `except` returns the
zeroed stats dict and the DELETEs for `pose_sequence_matches` and
`smart_overlay_cache` are never reached.  No namespace is ever swept and
the reported counts are always zero.  (The `result.get("rowcount", 0)`
call on the list `Table.sql` would return is a second, masked bug on the
same lines: it is never reached because the statement raises first.) -/
def cleanup_expired_cache (avail : Bool) (now : ℤ) (st : Store) :
    CleanupStats × Store :=
  if avail then
    -- the first DELETE raises in the driver; except-handler returns zeros
    (⟨0, 0, 0⟩, st)
  else
    (⟨0, 0, 0⟩, st)

/-- C9: when the underlying store is unreachable, every cache operation of
`pose_cache.py` degrades gracefully: each `get_*` behaves as a miss
(returns None), each `cache_*` is a no-op returning False, the cleanup
returns zero counts, the store is untouched, and no exception escapes (each
method ends in its blanket except-handler, modelled by the fallback
branch). -/
theorem C9_store_unreachable_soft_failure (now : ℤ) (st : Store) (vid : ℕ)
    (a b pseq npos : List (List ℚ)) (score cs : ℝ) (ms ptms fsz : ℤ) (newId : ℕ)
    (ot ps am ma : String) (w h : ℕ) :
    get_video_pose_analysis false now st vid = (none, st) ∧
    get_sequence_match false now st a b = (none, st) ∧
    get_smart_overlay_cache false now st vid ot w h = (none, st) ∧
    cache_video_pose_analysis false now newId st vid pseq npos ma ptms fsz =
      (false, st) ∧
    cache_sequence_match false now newId st a b score ms = (false, st) ∧
    cache_smart_overlay_placement false now newId st vid ot w h ps am cs =
      (false, st) ∧
    cleanup_expired_cache false now st = (⟨0, 0, 0⟩, st) :=
  ⟨rfl, rfl, rfl, rfl, rfl, rfl, rfl⟩

/-- C7 (code bug): the spec's symmetric round-trip —
`cache_sequence_match(A, B, score)` succeeds, then
`get_cached_sequence_match(B, A)` returns `score` — can never occur in the
code: for every store, score and sequence pair the cache write returns
`False` (and leaves the store unchanged) and the subsequent reversed-order
lookup returns `None`, not the score.  Both methods die at their
`Table.sql` statement, whose named `%(name)s` placeholders (the SELECT has
five slots for the three tuple values) cannot be bound from the positional
tuple `Table.sql` builds, so the driver raises and each blanket `except`
returns its fallback. -/
theorem C7_cache_round_trip_impossible (avail : Bool) (now now2 : ℤ) (newId : ℕ)
    (st : Store) (A B : List (List ℚ)) (score : ℝ) (ms : ℤ) :
    (cache_sequence_match avail now newId st A B score ms).1 = false ∧
    (get_sequence_match avail now2
      (cache_sequence_match avail now newId st A B score ms).2 B A).1 = none := by
  cases avail <;> exact ⟨rfl, rfl⟩

/-- C8 (code bug): `cleanup_expired_cache` deletes nothing and always
reports zero removals in all three namespaces, for every store and every
time — in particular a store full of rows whose `last_accessed` predates
`now` minus each namespace TTL survives the sweep unchanged, so an expired
entry is never absent afterwards.  The first DELETE raises in the driver
before executing (named `%(cutoff)s` placeholder, positional params
tuple), the blanket `except` returns the zeroed stats dict, and the other
two DELETEs are never issued. -/
theorem C8_cleanup_never_deletes (avail : Bool) (now : ℤ) (st : Store) :
    (cleanup_expired_cache avail now st).1 = ⟨0, 0, 0⟩ ∧
    (cleanup_expired_cache avail now st).2 = st := by
  cases avail <;> exact ⟨rfl, rfl⟩

/-! ## The cache interplay of the sequence matcher is dead code -/

lemma get_sequence_match_eq (avail : Bool) (now : ℤ) (st : Store)
    (A B : List (List ℚ)) : get_sequence_match avail now st A B = (none, st) := by
  cases avail <;> rfl

lemma cache_sequence_match_eq (avail : Bool) (now : ℤ) (newId : ℕ) (st : Store)
    (A B : List (List ℚ)) (score : ℝ) (ms : ℤ) :
    cache_sequence_match avail now newId st A B score ms = (false, st) := by
  cases avail <;> rfl

/-- Real-valued view of a rational pose sequence (floats are exact
rationals; the numeric pipeline computes on their real values). -/
def ratSeq (s : List (List ℚ)) : List (List ℝ) := s.map fun f => f.map fun q => (q : ℝ)

lemma ratSeq_isEmpty (s : List (List ℚ)) : (ratSeq s).isEmpty = s.isEmpty := by
  cases s <;> rfl

lemma ratSeq_length (s : List (List ℚ)) : (ratSeq s).length = s.length := by
  simp [ratSeq]

/-- Embeds the caching interplay of `PoseAnalyzer.find_pose_sequence_match`
(computer_vision.py 341-393): after the guards, consult
`get_cached_sequence_match` and return a hit; on a miss run the
sliding-window scan (the pure `find_pose_sequence_match` above — its
guards re-evaluate to the same false branches) and hand the result to
`cache_sequence_match`.  The rational sequences feed the cache layer,
their real values the numeric scan; `ms` stands for the measured
computation time. -/
noncomputable def find_pose_sequence_match_cached (avail : Bool) (now : ℤ)
    (newId : ℕ) (ms : ℤ) (st : Store) (sequence_a sequence_b : List (List ℚ)) :
    ℝ × Store :=
  if sequence_a.isEmpty ∨ sequence_b.isEmpty then (0, st)
  else if sequence_a.length < sequence_b.length then (0, st)
  else
    let res := get_sequence_match avail now st sequence_a sequence_b
    match res.1 with
    | some cached_result => (cached_result, res.2)
    | none =>
      let max_similarity :=
        find_pose_sequence_match (ratSeq sequence_a) (ratSeq sequence_b)
      (max_similarity,
       (cache_sequence_match avail now newId res.2 sequence_a sequence_b
         max_similarity ms).2)

lemma find_cached_eq (avail : Bool) (now : ℤ) (newId : ℕ) (ms : ℤ) (st : Store)
    (A B : List (List ℚ)) :
    find_pose_sequence_match_cached avail now newId ms st A B =
      (find_pose_sequence_match (ratSeq A) (ratSeq B), st) := by
  unfold find_pose_sequence_match_cached
  rw [get_sequence_match_eq]
  split_ifs with h1 h2
  · rw [find_pose_sequence_match, if_pos (by rwa [ratSeq_isEmpty, ratSeq_isEmpty])]
  · rw [find_pose_sequence_match, if_neg (by rw [ratSeq_isEmpty, ratSeq_isEmpty]; exact h1),
      if_pos (by rw [ratSeq_length, ratSeq_length]; exact h2)]
  · show (find_pose_sequence_match (ratSeq A) (ratSeq B),
        (cache_sequence_match avail now newId st A B
          (find_pose_sequence_match (ratSeq A) (ratSeq B)) ms).2) =
      (find_pose_sequence_match (ratSeq A) (ratSeq B), st)
    rw [cache_sequence_match_eq]

/-- C10: `normalize_pose_sequence` and `find_pose_sequence_match` are pure
functions of their inputs, and the cache interplay of the source cannot
perturb that: the cache consult always misses and the write-back never
writes (their statements cannot bind their named placeholders), so the
full cached entry point always returns exactly the pure recomputation and
leaves the store unchanged, and a repeated call — in particular a later
call after an earlier one attempted to populate the cache — returns the
bit-identical score.  No score is ever stored in or retrieved from the
cache, so the stored-score round-trip case never arises. -/
theorem C10_determinism (avail : Bool) (now now2 : ℤ) (newId newId2 : ℕ)
    (ms ms2 : ℤ) (st : Store) (A B : List (List ℚ)) :
    find_pose_sequence_match_cached avail now newId ms st A B =
      (find_pose_sequence_match (ratSeq A) (ratSeq B), st) ∧
    (find_pose_sequence_match_cached avail now2 newId2 ms2
        (find_pose_sequence_match_cached avail now newId ms st A B).2 A B).1 =
      (find_pose_sequence_match_cached avail now newId ms st A B).1 := by
  refine ⟨find_cached_eq avail now newId ms st A B, ?_⟩
  simp only [find_cached_eq]

end MagicLens
